import Mathlib

/-!
# Verification of the `bevy_proto` scripting example core

A shallow embedding of the system described by the repository's
specification: the declarative entity-assembly pipeline (schematic
registry, prototype store, proto-spawn command layer), the script-host
lifecycle, the API-provider registry and the priority event dispatcher,
together with the script-exposed `spawn` callable from
`src/examples/spawn_via_script.rs`.

Only the example file `spawn_via_script.rs` is present in the repository
source; the library subsystems it exercises are modelled from the
specification (each such definition carries a doc comment saying so).
-/

/-! ## Association lists

Generic first-key lookup, keyed update and upsert, used by the world,
the registry and the prototype store. -/

/-- First-match lookup in an association list. -/
def flookup {α β : Type} [DecidableEq α] : List (α × β) → α → Option β
  | [], _ => none
  | p :: rest, k => if p.1 = k then some p.2 else flookup rest k

/-- Apply `g` to the value of every entry whose key is `k`. -/
def updAssoc {α β : Type} [DecidableEq α] (l : List (α × β)) (k : α) (g : β → β) :
    List (α × β) :=
  l.map fun p => if p.1 = k then (p.1, g p.2) else p

/-- Insert-or-replace the binding of `k`. -/
def upsert {α β : Type} [DecidableEq α] : List (α × β) → α → β → List (α × β)
  | [], k, v => [(k, v)]
  | p :: rest, k, v => if p.1 = k then (k, v) :: rest else p :: upsert rest k v

/-! ## Data model: schematics, world, prototypes

Modelled from the spec (§3, §4.1–4.3); the corresponding library code of
`bevy_proto` is not part of the repository source. -/

/-- Stable identifier naming a registered schematic kind (spec §3). -/
abbrev SchematicTypeId := String

/-- Modelled from the spec: a structured data blob (map of field→value)
bound to a `SchematicTypeId` (spec §3). Field values are integers, the
one value kind the spec's scenario (`Stat{hp:10}`) needs. -/
structure SchematicFragment where
  typeId : SchematicTypeId
  fields : List (String × Int)
deriving DecidableEq

/-- Component data attached to an entity: per component-type a field map. -/
abbrev Comps := List (String × List (String × Int))

/-- Modelled from the spec: the world holds entities (id → components)
and a fresh-id allocator. Entity ids in use are always below `nextId`. -/
structure World where
  nextId : Nat
  entities : List (Nat × Comps)
deriving DecidableEq

/-- Modelled from the spec: a schematic applier knows how to decode a
fragment's field map into the component it is responsible for; `none`
signals a malformed fragment (spec §4.1). -/
structure Applier where
  decode : List (String × Int) → Option (List (String × Int))

/-- Modelled from the spec: the Schematic Registry maps a type identifier
to its applier (spec §2.1, §4.1). -/
abbrev Registry := List (SchematicTypeId × Applier)

inductive ApplyError where
  | UnknownType : ApplyError
  | MalformedFragment : ApplyError
  | WorldMutationError : ApplyError
deriving DecidableEq

/-- Modelled from the spec: `apply(type_id, fragment, target_entity, world)`
(spec §4.1). Fails with `UnknownType` if the fragment's type is not
registered, `MalformedFragment` if the applier rejects its shape, and
`WorldMutationError` if the target entity does not exist; otherwise it
adds/updates the one component the applier is responsible for, on the
target entity only. -/
def applyFrag (reg : Registry) (frag : SchematicFragment) (e : Nat) (w : World) :
    Except ApplyError World :=
  match flookup reg frag.typeId with
  | none => Except.error ApplyError.UnknownType
  | some ap =>
    match ap.decode frag.fields with
    | none => Except.error ApplyError.MalformedFragment
    | some c =>
      if (flookup w.entities e).isSome then
        Except.ok { w with entities := updAssoc w.entities e (fun cs => upsert cs frag.typeId c) }
      else Except.error ApplyError.WorldMutationError

/-- Modelled from the spec: a named, ordered list of schematic fragments
describing how to assemble one entity kind (spec §3). -/
structure PrototypeDescriptor where
  name : String
  fragments : List SchematicFragment
deriving DecidableEq

/-- Modelled from the spec: load state of a `PrototypeHandle`; the
descriptor is available exactly in the `Ready` state (spec §3, §4.2). -/
inductive LoadState where
  | Loading : LoadState
  | Ready : PrototypeDescriptor → LoadState
  | Failed : String → LoadState
deriving DecidableEq

/-- Modelled from the spec: the Prototype Store holds named handles
(spec §2.2, §4.2). -/
structure PrototypeStore where
  handles : List (String × LoadState)
deriving DecidableEq

/-- `true` exactly in the `Ready` state (readiness predicate, spec §6). -/
def isReadyState : LoadState → Bool
  | LoadState.Ready _ => true
  | _ => false

/-- `get`: the descriptor, available only when `Ready` (spec §4.2). -/
def getDesc : LoadState → Option PrototypeDescriptor
  | LoadState.Ready d => some d
  | _ => none

/-- Modelled from the spec: asynchronous load/reload notifications that
drive a handle's state machine (spec §4.2, §9). -/
inductive LoadEvent where
  | loadCompleted : PrototypeDescriptor → LoadEvent
  | loadFailed : String → LoadEvent
  | hotReload : PrototypeDescriptor → LoadEvent
deriving DecidableEq

def isHotReload : LoadEvent → Bool
  | LoadEvent.hotReload _ => true
  | _ => false

/-- Modelled from the spec: handle state machine. A `Loading` handle
transitions to `Ready`/`Failed` exactly once; a hot-reload republishes a
new descriptor under a `Ready` handle; every other combination leaves
the state unchanged (spec §3, §4.2). -/
def stepHandle : LoadState → LoadEvent → LoadState
  | LoadState.Loading, LoadEvent.loadCompleted d => LoadState.Ready d
  | LoadState.Loading, LoadEvent.loadFailed r => LoadState.Failed r
  | LoadState.Ready _, LoadEvent.hotReload d => LoadState.Ready d
  | s, _ => s

/-! ## Proto-spawn command layer

Modelled from the spec (§4.3): `spawn(name)` requires the named handle to
be `Ready`, allocates a fresh entity, applies the descriptor's fragments
in declaration order through the registry, and on any failure despawns
the partially constructed entity before propagating the error. -/

inductive SpawnError where
  | PrototypeNotReady : SpawnError
  | ApplyFailed : ApplyError → SpawnError
deriving DecidableEq

/-- The world right after allocating the fresh (still empty) entity. -/
def spawnInit (w : World) : World :=
  { nextId := w.nextId + 1, entities := w.entities ++ [(w.nextId, [])] }

/-- Apply fragments in declaration order, stopping at the first failure
and returning the world reached so far (so a failed spawn can roll it
back). -/
def applyAllRB (reg : Registry) : List SchematicFragment → Nat → World →
    Option ApplyError × World
  | [], _, w => (none, w)
  | f :: rest, e, w =>
    match applyFrag reg f e w with
    | Except.ok w' => applyAllRB reg rest e w'
    | Except.error err => (some err, w)

/-- Remove entity `e` from the world (rollback of a failed spawn). -/
def despawn (w : World) (e : Nat) : World :=
  { w with entities := w.entities.filter (fun p => decide (p.1 ≠ e)) }

/-- Modelled from the spec: `spawn(name) -> Result<EntityId, SpawnError>`
(spec §4.3). A handle that is absent, still `Loading` or `Failed` yields
`PrototypeNotReady`; otherwise a fresh entity is allocated and the
descriptor's fragments applied in order, with despawn-rollback on
failure. -/
def ProtoSpawn.spawn (reg : Registry) (store : PrototypeStore) (name : String)
    (w : World) : Except SpawnError Nat × World :=
  match flookup store.handles name with
  | some (LoadState.Ready d) =>
    match applyAllRB reg d.fragments w.nextId (spawnInit w) with
    | (none, w2) => (Except.ok w.nextId, w2)
    | (some err, w2) =>
      (Except.error (SpawnError.ApplyFailed err), despawn w2 w.nextId)
  | _ => (Except.error SpawnError.PrototypeNotReady, w)

/-! ## Deferred proto commands and the script-exposed callable

`ProtoCommands::spawn` as used by the example is the deferred variant:
the command layer "queues its mutations for safe application" (spec §2.3).
The entity id is allocated immediately; resolving the prototype and
applying its fragments happen later, when the queued command runs, so no
spawn error can reach the caller. -/

/-- Modelled from the spec: state threaded through `ProtoCommands` — the
world plus the queue of pending proto-spawn commands (prototype name and
the entity they will assemble). -/
structure ProtoCommandsState where
  world : World
  pending : List (String × Nat)
deriving DecidableEq

/-- Modelled from the spec: the deferred `ProtoCommands::spawn` used at
`spawn_via_script.rs:74`. Allocates a fresh entity id at once and queues
the prototype application; any `SpawnError` surfaces only when the
queued command is applied, never through this call's return value. -/
def protoCommandsSpawn (s : ProtoCommandsState) (protoName : String) :
    Nat × ProtoCommandsState :=
  (s.world.nextId,
   { world := spawnInit s.world,
     pending := s.pending ++ [(protoName, s.world.nextId)] })

/-- The script-native value representation (`rhai::Dynamic`), restricted
to the shapes the example produces. -/
inductive RhaiDynamic where
  | entityId : Nat → RhaiDynamic
  | unitVal : RhaiDynamic
deriving DecidableEq

/-- Embedding of `fn spawn(world, proto_name) -> Dynamic` from
`src/examples/spawn_via_script.rs:69-77`: obtain `ProtoCommands` from the
world, call its deferred `spawn`, and wrap the returned entity id in a
`RhaiDynamic`. -/
def SpawnViaScript.spawn (s : ProtoCommandsState) (protoName : String) :
    RhaiDynamic × ProtoCommandsState :=
  let r := protoCommandsSpawn s protoName
  (RhaiDynamic.entityId r.1, r.2)

/-! ## API provider registry

Modelled from the spec (§4.5): installing a provider registers each of
its exported callables by name; a name collision aborts the install with
`DuplicateFunctionName`. -/

/-- Modelled from the spec: a named bundle of exported callable names
(spec §3). The callables themselves are opaque here; only their names
matter for installation. -/
structure ApiProviderRecord where
  providerName : String
  functions : List String
deriving DecidableEq

inductive ApiInstallError where
  | DuplicateFunctionName : String → ApiInstallError
deriving DecidableEq

/-- The function-name table of one script host. -/
structure HostApi where
  functions : List String
deriving DecidableEq

/-- Register the given exported names one by one, failing on the first
name already present. -/
def installFns (api : HostApi) : List String → Except ApiInstallError HostApi
  | [] => Except.ok api
  | f :: rest =>
    if f ∈ api.functions then Except.error (ApiInstallError.DuplicateFunctionName f)
    else installFns { functions := api.functions ++ [f] } rest

/-- Modelled from the spec: `install(provider) -> Result<(), ApiInstallError>`
(spec §4.5), as exercised by the two `add_api_provider` calls in
`spawn_via_script.rs:26-27`. -/
def install (api : HostApi) (p : ApiProviderRecord) : Except ApiInstallError HostApi :=
  installFns api p.functions

/-! ## Script host contexts and the event dispatcher

Modelled from the spec (§4.4, §4.6); the corresponding library code of
`bevy_mod_scripting` is not part of the repository source. -/

/-- Modelled from the spec: per-association lifecycle state of a script
context (spec §4.4). -/
inductive CtxState where
  | Unloaded : CtxState
  | Loading : CtxState
  | Attached : CtxState
  | Running : CtxState
  | Detached : CtxState
deriving DecidableEq

/-- A context is eligible to receive events in `Attached`/`Running`
(spec §4.6). -/
def isLive : CtxState → Bool
  | CtxState.Attached => true
  | CtxState.Running => true
  | _ => false

/-- Modelled from the spec: one live execution environment, bound to an
owning entity and exposing named hooks (spec §3). Interpreter-internal
state is opaque and elided. -/
structure ScriptContext where
  ctxId : Nat
  owner : Option Nat
  hooks : List String
  state : CtxState
deriving DecidableEq

/-- Modelled from the spec: the recipient selector of an event
(spec §3, §6). -/
inductive Recipients where
  | All : Recipients
  | Entity : Nat → Recipients
  | ScriptContext : Nat → Recipients
deriving DecidableEq

/-- Modelled from the spec: a named event with an opaque payload and a
recipient selector (spec §3), as sent by `call_script_update` in
`spawn_via_script.rs:105-114`. -/
structure Event where
  hookName : String
  payload : String
  recipients : Recipients
deriving DecidableEq

/-- An event as it sits in the dispatcher's queue: the event, its numeric
priority and its enqueue sequence number. -/
structure QueuedEvent where
  event : Event
  priority : Int
  seq : Nat
deriving DecidableEq

/-- Enqueue the given `(event, priority)` list in order, assigning
consecutive sequence numbers starting at `n` (`send`, spec §4.6). -/
def enqueueFrom (n : Nat) : List (Event × Int) → List QueuedEvent
  | [] => []
  | it :: rest => { event := it.1, priority := it.2, seq := n } :: enqueueFrom (n + 1) rest

/-- Dispatch order on queued events: strictly higher priority first,
ties broken by enqueue order, FIFO (spec §4.6). -/
def evOrd (a b : QueuedEvent) : Prop :=
  b.priority < a.priority ∨ (a.priority = b.priority ∧ a.seq ≤ b.seq)

instance : DecidableRel evOrd := fun a b => by
  unfold evOrd
  infer_instance

instance : IsTotal QueuedEvent evOrd where
  total a b := by
    unfold evOrd
    rcases lt_trichotomy a.priority b.priority with h | h | h
    · exact Or.inr (Or.inl h)
    · rcases Nat.le_total a.seq b.seq with hs | hs
      · exact Or.inl (Or.inr ⟨h, hs⟩)
      · exact Or.inr (Or.inr ⟨h.symm, hs⟩)
    · exact Or.inl (Or.inl h)

instance : IsTrans QueuedEvent evOrd where
  trans a b c hab hbc := by
    unfold evOrd at hab hbc ⊢
    rcases hab with h1 | ⟨h1, h1s⟩ <;> rcases hbc with h2 | ⟨h2, h2s⟩
    · exact Or.inl (h2.trans h1)
    · exact Or.inl (h2 ▸ h1)
    · exact Or.inl (h1 ▸ h2)
    · exact Or.inr ⟨h1.trans h2, h1s.trans h2s⟩

/-- The dispatcher drains the queue in strictly descending priority,
FIFO among equal priorities (spec §4.6). -/
def sortQueue (q : List QueuedEvent) : List QueuedEvent :=
  List.insertionSort evOrd q

/-- Whether a context is selected as a recipient of an event
(spec §4.6): `All` reaches every live context exposing the hook;
`Entity`/`ScriptContext` reach the single live matching context. -/
def isRecipient (ev : Event) (c : ScriptContext) : Bool :=
  isLive c.state &&
    match ev.recipients with
    | Recipients.All => c.hooks.contains ev.hookName
    | Recipients.Entity i => decide (c.owner = some i)
    | Recipients.ScriptContext i => decide (c.ctxId = i)

/-- Per-delivery context transition: a recipient enters `Running` for the
hook invocation and returns to `Attached` whether or not the hook failed
(spec §4.4, §4.6); non-recipients are untouched. -/
def updCtx (ev : Event) (c : ScriptContext) : ScriptContext :=
  if isRecipient ev c then { c with state := CtxState.Attached } else c

/-- One record of the delivery log: which queued event (by sequence
number and priority) invoked which hook on which context. -/
structure Delivery where
  seq : Nat
  priority : Int
  ctxId : Nat
  hook : String
deriving DecidableEq

/-- A failed hook invocation, tagged with the hook name and the script
context identity (spec §4.4, §7). -/
structure ScriptRuntimeError where
  hookName : String
  scriptId : Nat
deriving DecidableEq

/-- Deliver one queued event: resolve its recipients among the contexts,
invoke the hook on each (`run ctxId hook` tells whether the invocation
succeeds), record a delivery per recipient and a runtime error per
failing invocation (spec §4.6). -/
def deliverEvent (run : Nat → String → Bool) (qe : QueuedEvent)
    (ctxs : List ScriptContext) :
    List ScriptContext × List Delivery × List ScriptRuntimeError :=
  let recips := ctxs.filter (fun c => isRecipient qe.event c)
  (ctxs.map (updCtx qe.event),
   recips.map (fun c =>
     { seq := qe.seq, priority := qe.priority, ctxId := c.ctxId,
       hook := qe.event.hookName }),
   (recips.filter (fun c => !(run c.ctxId qe.event.hookName))).map
     (fun c => { hookName := qe.event.hookName, scriptId := c.ctxId }))

/-- Deliver an already-sorted list of queued events in order, threading
the contexts and accumulating the delivery log and runtime errors. -/
def dispatchRun (run : Nat → String → Bool) :
    List QueuedEvent → List ScriptContext →
    List ScriptContext × List Delivery × List ScriptRuntimeError
  | [], ctxs => (ctxs, [], [])
  | qe :: rest, ctxs =>
    let r1 := deliverEvent run qe ctxs
    let r2 := dispatchRun run rest r1.1
    (r2.1, r1.2.1 ++ r2.2.1, r1.2.2 ++ r2.2.2)

/-- The outcome of one dispatch pass. -/
structure DispatchResult where
  ctxs : List ScriptContext
  log : List Delivery
  errors : List ScriptRuntimeError
  queue : List QueuedEvent
deriving DecidableEq

/-- Modelled from the spec: `dispatch_pass()` (spec §4.6) — drain the
whole queue in strictly descending priority (FIFO among ties), deliver
each event to its resolved recipients, and leave the queue empty. -/
def dispatchPass (run : Nat → String → Bool) (ctxs : List ScriptContext)
    (q : List QueuedEvent) : DispatchResult :=
  let r := dispatchRun run (sortQueue q) ctxs
  { ctxs := r.1, log := r.2.1, errors := r.2.2, queue := [] }

/-- The per-context effect of a whole event list, in delivery order. -/
def updAll : List QueuedEvent → ScriptContext → ScriptContext
  | [], c => c
  | qe :: rest, c => updAll rest (updCtx qe.event c)

/-- The recipient-relevant fields of a context. -/
def ctxKey (c : ScriptContext) : Nat × Option Nat × List String × Bool :=
  (c.ctxId, c.owner, c.hooks, isLive c.state)

/-- Delivery-log order induced by `evOrd`: a log entry of a strictly
higher-priority event precedes one of lower priority; among equal
priorities, earlier enqueue order precedes. -/
def dOrd (d1 d2 : Delivery) : Prop :=
  d2.priority < d1.priority ∨ (d1.priority = d2.priority ∧ d1.seq ≤ d2.seq)

/-! ## Lemmas about association lists -/

theorem flookup_updAssoc_ne {α β : Type} [DecidableEq α]
    (l : List (α × β)) (k k' : α) (g : β → β) (h : k' ≠ k) :
    flookup (updAssoc l k g) k' = flookup l k' := by
  induction l with
  | nil => rfl
  | cons p rest ih =>
    by_cases hp : p.1 = k
    · simp only [updAssoc, List.map_cons, flookup, hp, if_pos rfl]
      rw [if_neg (by simpa [hp] using h.symm), if_neg (by simpa [hp] using h.symm)]
      simpa [updAssoc] using ih
    · simp only [updAssoc, List.map_cons, flookup, if_neg hp]
      by_cases hk' : p.1 = k'
      · simp [hk']
      · simpa [hk', updAssoc] using ih

theorem flookup_updAssoc_eq {α β : Type} [DecidableEq α]
    (l : List (α × β)) (k : α) (g : β → β) (v : β) (h : flookup l k = some v) :
    flookup (updAssoc l k g) k = some (g v) := by
  induction l with
  | nil => simp [flookup] at h
  | cons p rest ih =>
    by_cases hp : p.1 = k
    · simp only [flookup, if_pos hp] at h
      cases h
      simp [updAssoc, flookup, hp]
    · simp only [flookup, if_neg hp] at h
      simpa [updAssoc, flookup, hp] using ih h

theorem updAssoc_map_fst {α β : Type} [DecidableEq α]
    (l : List (α × β)) (k : α) (g : β → β) :
    (updAssoc l k g).map Prod.fst = l.map Prod.fst := by
  induction l with
  | nil => rfl
  | cons p rest ih =>
    by_cases hp : p.1 = k <;> simp [updAssoc, hp] at ih ⊢ <;> simpa [updAssoc] using ih

theorem filter_updAssoc {α β : Type} [DecidableEq α]
    (l : List (α × β)) (k : α) (g : β → β) :
    (updAssoc l k g).filter (fun p => decide (p.1 ≠ k)) =
      l.filter (fun p => decide (p.1 ≠ k)) := by
  induction l with
  | nil => rfl
  | cons p rest ih =>
    by_cases hp : p.1 = k
    · simp [updAssoc, List.filter_cons, hp] at ih ⊢
      simpa [updAssoc] using ih
    · simp [updAssoc, List.filter_cons, hp] at ih ⊢
      simpa [updAssoc] using ih

/-! ## Helper lemmas: event dispatcher -/

theorem dispatchPass_log (run : Nat → String → Bool) (ctxs : List ScriptContext)
    (q : List QueuedEvent) :
    (dispatchPass run ctxs q).log = (dispatchRun run (sortQueue q) ctxs).2.1 := rfl

theorem dispatchPass_errors (run : Nat → String → Bool) (ctxs : List ScriptContext)
    (q : List QueuedEvent) :
    (dispatchPass run ctxs q).errors = (dispatchRun run (sortQueue q) ctxs).2.2 := rfl

theorem dispatchPass_ctxs (run : Nat → String → Bool) (ctxs : List ScriptContext)
    (q : List QueuedEvent) :
    (dispatchPass run ctxs q).ctxs = (dispatchRun run (sortQueue q) ctxs).1 := rfl

theorem deliverEvent_ctxs (run : Nat → String → Bool) (qe : QueuedEvent)
    (ctxs : List ScriptContext) :
    (deliverEvent run qe ctxs).1 = ctxs.map (updCtx qe.event) := rfl

theorem deliverEvent_log (run : Nat → String → Bool) (qe : QueuedEvent)
    (ctxs : List ScriptContext) :
    (deliverEvent run qe ctxs).2.1 =
      (ctxs.filter (fun c => isRecipient qe.event c)).map (fun c =>
        { seq := qe.seq, priority := qe.priority, ctxId := c.ctxId,
          hook := qe.event.hookName }) := rfl

theorem deliverEvent_errors (run : Nat → String → Bool) (qe : QueuedEvent)
    (ctxs : List ScriptContext) :
    (deliverEvent run qe ctxs).2.2 =
      ((ctxs.filter (fun c => isRecipient qe.event c)).filter
          (fun c => !(run c.ctxId qe.event.hookName))).map
        (fun c => { hookName := qe.event.hookName, scriptId := c.ctxId }) := rfl

theorem updCtx_ctxId (ev : Event) (c : ScriptContext) :
    (updCtx ev c).ctxId = c.ctxId := by
  unfold updCtx
  split <;> rfl

theorem ctxKey_updCtx (ev : Event) (c : ScriptContext) :
    ctxKey (updCtx ev c) = ctxKey c := by
  unfold updCtx
  split
  · rename_i h
    have hl : isLive c.state = true := by
      unfold isRecipient at h
      exact ((Bool.and_eq_true _ _).mp h).1
    obtain ⟨i, o, hks, st⟩ := c
    simp only [ctxKey]
    rw [hl]
    rfl
  · rfl

theorem isRecipient_congr (ev : Event) (c1 c2 : ScriptContext)
    (h : ctxKey c1 = ctxKey c2) : isRecipient ev c1 = isRecipient ev c2 := by
  obtain ⟨i1, o1, hk1, s1⟩ := c1
  obtain ⟨i2, o2, hk2, s2⟩ := c2
  simp only [ctxKey, Prod.mk.injEq] at h
  obtain ⟨hi, ho, hh, hl⟩ := h
  subst hi
  subst ho
  subst hh
  unfold isRecipient
  rw [hl]

theorem updCtx_attached (ev : Event) (c : ScriptContext)
    (h : c.state = CtxState.Attached) :
    (updCtx ev c).state = CtxState.Attached := by
  unfold updCtx
  split
  · rfl
  · exact h

theorem ctxKey_updAll : ∀ (q : List QueuedEvent) (c : ScriptContext),
    ctxKey (updAll q c) = ctxKey c
  | [], _ => rfl
  | qe :: rest, c => (ctxKey_updAll rest (updCtx qe.event c)).trans (ctxKey_updCtx qe.event c)

theorem updAll_attached : ∀ (q : List QueuedEvent) (c : ScriptContext),
    c.state = CtxState.Attached → (updAll q c).state = CtxState.Attached
  | [], _, h => h
  | qe :: rest, c, h => updAll_attached rest (updCtx qe.event c) (updCtx_attached qe.event c h)

theorem dispatchRun_ctxs (run : Nat → String → Bool) :
    ∀ (q : List QueuedEvent) (ctxs : List ScriptContext),
    (dispatchRun run q ctxs).1 = ctxs.map (updAll q)
  | [], ctxs => by
    simp only [dispatchRun]
    rw [show updAll [] = id from rfl, List.map_id]
  | qe :: rest, ctxs => by
    simp only [dispatchRun]
    rw [deliverEvent_ctxs, dispatchRun_ctxs run rest (ctxs.map (updCtx qe.event)),
      List.map_map]
    rfl

theorem dispatchRun_log_mem (run : Nat → String → Bool) :
    ∀ (q : List QueuedEvent) (ctxs : List ScriptContext) (d : Delivery),
    d ∈ (dispatchRun run q ctxs).2.1 →
    ∃ qe ∈ q, ∃ c ∈ ctxs, d.seq = qe.seq ∧ d.priority = qe.priority ∧
      d.ctxId = c.ctxId ∧ isRecipient qe.event c = true
  | [], _, d, hd => absurd hd (List.not_mem_nil d)
  | qe :: rest, ctxs, d, hd => by
    simp only [dispatchRun] at hd
    rw [List.mem_append] at hd
    rcases hd with hd | hd
    · rw [deliverEvent_log] at hd
      obtain ⟨c, hc, rfl⟩ := List.mem_map.mp hd
      have hcm := List.mem_filter.mp hc
      exact ⟨qe, List.mem_cons_self qe rest, c, hcm.1, rfl, rfl, rfl, hcm.2⟩
    · rw [deliverEvent_ctxs] at hd
      obtain ⟨qe', hqe', c', hc', h1, h2, h3, h4⟩ :=
        dispatchRun_log_mem run rest (ctxs.map (updCtx qe.event)) d hd
      obtain ⟨c, hc, rfl⟩ := List.mem_map.mp hc'
      refine ⟨qe', List.mem_cons_of_mem _ hqe', c, hc, h1, h2, ?_, ?_⟩
      · rw [h3, updCtx_ctxId qe.event c]
      · rw [← h4]
        exact (isRecipient_congr qe'.event _ _ (ctxKey_updCtx qe.event c)).symm

theorem dispatchRun_err_mem (run : Nat → String → Bool) :
    ∀ (q : List QueuedEvent) (ctxs : List ScriptContext)
    (qe : QueuedEvent) (c : ScriptContext), qe ∈ q → c ∈ ctxs →
    isRecipient qe.event c = true → run c.ctxId qe.event.hookName = false →
    ({ hookName := qe.event.hookName, scriptId := c.ctxId } : ScriptRuntimeError) ∈
      (dispatchRun run q ctxs).2.2
  | [], _, _, _, hq, _, _, _ => absurd hq (List.not_mem_nil _)
  | qe0 :: rest, ctxs, qe, c, hq, hc, hrec, hfail => by
    simp only [dispatchRun]
    rw [List.mem_append]
    rcases List.mem_cons.mp hq with rfl | hq'
    · left
      rw [deliverEvent_errors]
      refine List.mem_map.mpr ⟨c, List.mem_filter.mpr
        ⟨List.mem_filter.mpr ⟨hc, hrec⟩, ?_⟩, rfl⟩
      rw [hfail]
      rfl
    · right
      rw [deliverEvent_ctxs]
      have hc' : updCtx qe0.event c ∈ ctxs.map (updCtx qe0.event) :=
        List.mem_map_of_mem _ hc
      have hrec' : isRecipient qe.event (updCtx qe0.event c) = true := by
        rw [isRecipient_congr qe.event _ _ (ctxKey_updCtx qe0.event c)]
        exact hrec
      have hfail' : run (updCtx qe0.event c).ctxId qe.event.hookName = false := by
        rw [updCtx_ctxId qe0.event c]
        exact hfail
      have hmem := dispatchRun_err_mem run rest (ctxs.map (updCtx qe0.event)) qe
        (updCtx qe0.event c) hq' hc' hrec' hfail'
      rw [updCtx_ctxId qe0.event c] at hmem
      exact hmem

theorem dispatchRun_run_irrel (run run2 : Nat → String → Bool) :
    ∀ (q : List QueuedEvent) (ctxs : List ScriptContext),
    (dispatchRun run q ctxs).2.1 = (dispatchRun run2 q ctxs).2.1 ∧
    (dispatchRun run q ctxs).1 = (dispatchRun run2 q ctxs).1
  | [], _ => ⟨rfl, rfl⟩
  | qe :: rest, ctxs => by
    have ih := dispatchRun_run_irrel run run2 rest (ctxs.map (updCtx qe.event))
    constructor
    · show (deliverEvent run qe ctxs).2.1 ++
          (dispatchRun run rest (deliverEvent run qe ctxs).1).2.1 =
        (deliverEvent run2 qe ctxs).2.1 ++
          (dispatchRun run2 rest (deliverEvent run2 qe ctxs).1).2.1
      rw [deliverEvent_log, deliverEvent_log, deliverEvent_ctxs, deliverEvent_ctxs]
      rw [ih.1]
    · show (dispatchRun run rest (deliverEvent run qe ctxs).1).1 =
        (dispatchRun run2 rest (deliverEvent run2 qe ctxs).1).1
      rw [deliverEvent_ctxs, deliverEvent_ctxs]
      exact ih.2

theorem deliverEvent_log_keys (run : Nat → String → Bool) (qe : QueuedEvent)
    (ctxs : List ScriptContext) (d : Delivery)
    (hd : d ∈ (deliverEvent run qe ctxs).2.1) :
    d.seq = qe.seq ∧ d.priority = qe.priority := by
  rw [deliverEvent_log] at hd
  obtain ⟨c, _, rfl⟩ := List.mem_map.mp hd
  exact ⟨rfl, rfl⟩

theorem pairwise_of_all {α : Type} {R : α → α → Prop} (h : ∀ a b, R a b) :
    ∀ l : List α, l.Pairwise R
  | [] => List.Pairwise.nil
  | a :: l => List.Pairwise.cons (fun b _ => h a b) (pairwise_of_all h l)

theorem pairwise_ne_of_nodup_map {α β : Type} {f : α → β} :
    ∀ {l : List α}, (l.map f).Nodup → l.Pairwise (fun a b => f a ≠ f b)
  | [], _ => List.Pairwise.nil
  | a :: l, h => by
    rw [List.map_cons, List.nodup_cons] at h
    exact List.Pairwise.cons
      (fun b hb hfe => h.1 (hfe ▸ List.mem_map_of_mem f hb))
      (pairwise_ne_of_nodup_map h.2)

theorem enqueueFrom_seq_ge : ∀ (n : Nat) (items : List (Event × Int))
    (qe : QueuedEvent), qe ∈ enqueueFrom n items → n ≤ qe.seq
  | _, [], _, hq => absurd hq (List.not_mem_nil _)
  | n, it :: rest, qe, hq => by
    rcases List.mem_cons.mp hq with rfl | hq'
    · exact Nat.le_refl n
    · exact Nat.le_of_succ_le (enqueueFrom_seq_ge (n + 1) rest qe hq')

theorem enqueueFrom_seq_nodup : ∀ (n : Nat) (items : List (Event × Int)),
    ((enqueueFrom n items).map QueuedEvent.seq).Nodup
  | _, [] => List.nodup_nil
  | n, it :: rest => by
    rw [enqueueFrom, List.map_cons, List.nodup_cons]
    refine ⟨?_, enqueueFrom_seq_nodup (n + 1) rest⟩
    intro hmem
    obtain ⟨qe, hqe, hs⟩ := List.mem_map.mp hmem
    have hge := enqueueFrom_seq_ge (n + 1) rest qe hqe
    rw [hs] at hge
    exact absurd hge (Nat.not_succ_le_self n)

/-! ## Helper lemmas: spawn layer -/

theorem applyFrag_ok_entities (reg : Registry) (f : SchematicFragment) (e : Nat)
    (w w' : World) (h : applyFrag reg f e w = Except.ok w') :
    w'.nextId = w.nextId ∧
    w'.entities.filter (fun p => decide (p.1 ≠ e)) =
      w.entities.filter (fun p => decide (p.1 ≠ e)) ∧
    w'.entities.map Prod.fst = w.entities.map Prod.fst := by
  unfold applyFrag at h
  split at h
  · exact absurd h (by simp)
  · split at h
    · exact absurd h (by simp)
    · rename_i c hdec
      split at h
      · injection h with h2
        subst h2
        exact ⟨rfl, filter_updAssoc w.entities e (fun cs => upsert cs f.typeId c),
          updAssoc_map_fst w.entities e (fun cs => upsert cs f.typeId c)⟩
      · exact absurd h (by simp)

theorem applyAllRB_entities (reg : Registry) :
    ∀ (fs : List SchematicFragment) (e : Nat) (w : World),
    ((applyAllRB reg fs e w).2.entities.filter (fun p => decide (p.1 ≠ e)) =
      w.entities.filter (fun p => decide (p.1 ≠ e))) ∧
    ((applyAllRB reg fs e w).2.entities.map Prod.fst =
      w.entities.map Prod.fst) ∧
    (applyAllRB reg fs e w).2.nextId = w.nextId
  | [], _, _ => ⟨rfl, rfl, rfl⟩
  | f :: rest, e, w => by
    cases hf : applyFrag reg f e w with
    | ok w' =>
      have h1 := applyFrag_ok_entities reg f e w w' hf
      have ih := applyAllRB_entities reg rest e w'
      simp only [applyAllRB, hf]
      exact ⟨ih.1.trans h1.2.1, ih.2.1.trans h1.2.2, ih.2.2.trans h1.1⟩
    | error err => simp [applyAllRB, hf]

/-! ## Claim theorems: prototypes and spawning -/

/-- C8: for every registered schematic type `t` and well-formed fragment
`f` of type `t`, `apply(t, f, e, world)` succeeds and mutates exactly the
target entity `e` — it adds or updates the one component the applier is
responsible for, and no entity other than `e` is changed. -/
theorem schematic_apply_exact (reg : Registry) (f : SchematicFragment) (e : Nat)
    (w : World) (ap : Applier) (c : List (String × Int))
    (hreg : flookup reg f.typeId = some ap)
    (hwf : ap.decode f.fields = some c)
    (he : (flookup w.entities e).isSome) :
    ∃ w', applyFrag reg f e w = Except.ok w' ∧
      w'.nextId = w.nextId ∧
      (∀ e', e' ≠ e → flookup w'.entities e' = flookup w.entities e') ∧
      (∃ cs, flookup w.entities e = some cs ∧
        flookup w'.entities e = some (upsert cs f.typeId c)) ∧
      w'.entities.map Prod.fst = w.entities.map Prod.fst := by
  obtain ⟨cs, hcs⟩ := Option.isSome_iff_exists.mp he
  refine ⟨{ w with entities := updAssoc w.entities e (fun cs => upsert cs f.typeId c) },
    ?_, rfl, ?_, ⟨cs, hcs, ?_⟩, ?_⟩
  · simp only [applyFrag, hreg, hwf, he, if_true]
  · intro e' hne
    exact flookup_updAssoc_ne w.entities e e' (fun cs => upsert cs f.typeId c) hne
  · exact flookup_updAssoc_eq w.entities e (fun cs => upsert cs f.typeId c) cs hcs
  · exact updAssoc_map_fst w.entities e (fun cs => upsert cs f.typeId c)

/-- C8 witness: a concrete registered type, well-formed fragment and
two-entity world. -/
theorem schematic_apply_exact_witness :
    ∃ w', applyFrag [("Stat", Applier.mk (fun fs => some fs))]
        { typeId := "Stat", fields := [("hp", 10)] } 0
        { nextId := 2, entities := [(0, []), (1, [])] } = Except.ok w' ∧
      w'.nextId = 2 ∧
      (∀ e', e' ≠ 0 →
        flookup w'.entities e' =
          flookup ([(0, []), (1, [])] : List (Nat × Comps)) e') ∧
      (∃ cs, flookup ([(0, []), (1, [])] : List (Nat × Comps)) 0 = some cs ∧
        flookup w'.entities 0 = some (upsert cs "Stat" [("hp", 10)])) ∧
      w'.entities.map Prod.fst = [0, 1] :=
  schematic_apply_exact [("Stat", Applier.mk (fun fs => some fs))]
    { typeId := "Stat", fields := [("hp", 10)] } 0
    { nextId := 2, entities := [(0, []), (1, [])] }
    (Applier.mk (fun fs => some fs)) [("hp", 10)] rfl rfl rfl

theorem ProtoSpawn.spawn_of_ready (reg : Registry) (store : PrototypeStore)
    (name : String) (w : World) (d : PrototypeDescriptor)
    (hready : flookup store.handles name = some (LoadState.Ready d)) :
    ProtoSpawn.spawn reg store name w =
      (match applyAllRB reg d.fragments w.nextId (spawnInit w) with
       | (none, w2) => (Except.ok w.nextId, w2)
       | (some err, w2) =>
         (Except.error (SpawnError.ApplyFailed err), despawn w2 w.nextId)) := by
  unfold ProtoSpawn.spawn
  rw [hready]

/-- C1: spawn is atomic — if any fragment application fails during
`spawn(name)` (for instance because a fragment's schematic type is
unregistered), the partially constructed entity is despawned and a
`SpawnError` is returned, so the entity list after the call is exactly
the entity list before it. -/
theorem spawn_atomic (reg : Registry) (store : PrototypeStore) (name : String)
    (w : World) (d : PrototypeDescriptor) (err : ApplyError) (w2 : World)
    (hwf : ∀ p ∈ w.entities, p.1 < w.nextId)
    (hready : flookup store.handles name = some (LoadState.Ready d))
    (hfail : applyAllRB reg d.fragments w.nextId (spawnInit w) = (some err, w2)) :
    (ProtoSpawn.spawn reg store name w).1 =
      Except.error (SpawnError.ApplyFailed err) ∧
    (ProtoSpawn.spawn reg store name w).2.entities = w.entities := by
  have h2 := (applyAllRB_entities reg d.fragments w.nextId (spawnInit w)).1
  rw [hfail] at h2
  have hspawn : ProtoSpawn.spawn reg store name w =
      (Except.error (SpawnError.ApplyFailed err), despawn w2 w.nextId) := by
    rw [ProtoSpawn.spawn_of_ready reg store name w d hready, hfail]
  rw [hspawn]
  refine ⟨rfl, ?_⟩
  show w2.entities.filter (fun p => decide (p.1 ≠ w.nextId)) = w.entities
  rw [h2]
  have hsingle : ((w.nextId, ([] : Comps)) :: ([] : List (Nat × Comps))).filter
      (fun p => decide (p.1 ≠ w.nextId)) = [] := by simp
  rw [show (spawnInit w).entities = w.entities ++ [(w.nextId, [])] from rfl,
    List.filter_append, hsingle, List.append_nil]
  exact List.filter_eq_self.mpr
    (fun p hp => decide_eq_true (Nat.ne_of_lt (hwf p hp)))

/-- C1 witness: a prototype whose single fragment has an unregistered
schematic type; the failed spawn leaves the (empty) entity list
untouched. -/
theorem spawn_atomic_witness :
    (ProtoSpawn.spawn []
      { handles := [("P", LoadState.Ready
          { name := "P", fragments := [{ typeId := "X", fields := [] }] })] }
      "P" { nextId := 0, entities := [] }).1 =
      Except.error (SpawnError.ApplyFailed ApplyError.UnknownType) ∧
    (ProtoSpawn.spawn []
      { handles := [("P", LoadState.Ready
          { name := "P", fragments := [{ typeId := "X", fields := [] }] })] }
      "P" { nextId := 0, entities := [] }).2.entities = [] :=
  spawn_atomic [] _ "P" { nextId := 0, entities := [] }
    { name := "P", fragments := [{ typeId := "X", fields := [] }] }
    ApplyError.UnknownType { nextId := 1, entities := [(0, [])] }
    (by simp) rfl rfl

/-- C3: `spawn(name)` returns `Result<EntityId, SpawnError>` — while the
named handle is not `Ready` the call fails with `PrototypeNotReady`;
once it is `Ready` (and the fragments apply cleanly) it returns the
identifier of a fresh entity assembled from the descriptor's
fragments. -/
theorem spawn_result_contract (reg : Registry) (store : PrototypeStore)
    (name : String) (w : World)
    (hwf : ∀ p ∈ w.entities, p.1 < w.nextId) :
    ((∀ d, flookup store.handles name ≠ some (LoadState.Ready d)) →
      ProtoSpawn.spawn reg store name w =
        (Except.error SpawnError.PrototypeNotReady, w)) ∧
    (∀ d w2, flookup store.handles name = some (LoadState.Ready d) →
      applyAllRB reg d.fragments w.nextId (spawnInit w) = (none, w2) →
      (ProtoSpawn.spawn reg store name w).1 = Except.ok w.nextId ∧
      (∀ p ∈ w.entities, p.1 ≠ w.nextId) ∧
      (ProtoSpawn.spawn reg store name w).2 = w2 ∧
      w.nextId ∈ w2.entities.map Prod.fst) := by
  constructor
  · intro hnr
    cases hl : flookup store.handles name with
    | none => unfold ProtoSpawn.spawn; rw [hl]
    | some s =>
      cases s with
      | Loading => unfold ProtoSpawn.spawn; rw [hl]
      | Ready d => exact absurd hl (hnr d)
      | Failed r => unfold ProtoSpawn.spawn; rw [hl]
  · intro d w2 hready happ
    have hids := (applyAllRB_entities reg d.fragments w.nextId (spawnInit w)).2.1
    rw [happ] at hids
    have hspawn : ProtoSpawn.spawn reg store name w = (Except.ok w.nextId, w2) := by
      rw [ProtoSpawn.spawn_of_ready reg store name w d hready, happ]
    refine ⟨by rw [hspawn], fun p hp => Nat.ne_of_lt (hwf p hp), by rw [hspawn], ?_⟩
    rw [hids, show (spawnInit w).entities = w.entities ++ [(w.nextId, [])] from rfl,
      List.map_append]
    exact List.mem_append_right _ (by simp)

/-- C3 witness: before readiness (`Loading`) the spawn fails with
`PrototypeNotReady`; once the same name is `Ready` the spawn returns the
fresh entity id `0`. -/
theorem spawn_result_contract_witness :
    ProtoSpawn.spawn [] { handles := [("Grunt", LoadState.Loading)] } "Grunt"
      { nextId := 0, entities := [] } =
      (Except.error SpawnError.PrototypeNotReady, { nextId := 0, entities := [] }) ∧
    (ProtoSpawn.spawn [] { handles := [("Grunt", LoadState.Ready
        { name := "Grunt", fragments := [] })] } "Grunt"
      { nextId := 0, entities := [] }).1 = Except.ok 0 :=
  ⟨(spawn_result_contract [] { handles := [("Grunt", LoadState.Loading)] } "Grunt"
      { nextId := 0, entities := [] } (by simp)).1 (by intro d; simp [flookup]),
   ((spawn_result_contract [] { handles := [("Grunt", LoadState.Ready
        { name := "Grunt", fragments := [] })] } "Grunt"
      { nextId := 0, entities := [] } (by simp)).2
      { name := "Grunt", fragments := [] } { nextId := 1, entities := [(0, [])] }
      rfl rfl).1⟩

/-! ## Claim theorems: handle readiness -/

theorem foldl_stepHandle_ready (d : PrototypeDescriptor) :
    ∀ evs : List LoadEvent, (∀ ev ∈ evs, isHotReload ev = false) →
      evs.foldl stepHandle (LoadState.Ready d) = LoadState.Ready d
  | [], _ => rfl
  | ev :: rest, h => by
    have hev : isHotReload ev = false := h ev (List.mem_cons_self ev rest)
    have hstep : stepHandle (LoadState.Ready d) ev = LoadState.Ready d := by
      cases ev with
      | loadCompleted d' => rfl
      | loadFailed r => rfl
      | hotReload d' => exact absurd hev (by simp [isHotReload])
    rw [List.foldl_cons, hstep]
    exact foldl_stepHandle_ready d rest (fun e he => h e (List.mem_cons_of_mem _ he))

/-- C5: readiness is stable — a handle transitions out of `Loading` to
`Ready`/`Failed` exactly once (from `Ready` every step stays `Ready`,
from `Failed` every step is the identity), and once `Ready` with
descriptor `d`, any sequence of non-hot-reload load events leaves it
`Ready` with the very same descriptor, so the readiness query keeps
answering `Ready` and `get` keeps returning `d`. -/
theorem handle_readiness_stable (d : PrototypeDescriptor) (evs : List LoadEvent)
    (h : ∀ ev ∈ evs, isHotReload ev = false) :
    evs.foldl stepHandle (LoadState.Ready d) = LoadState.Ready d ∧
    isReadyState (evs.foldl stepHandle (LoadState.Ready d)) = true ∧
    getDesc (evs.foldl stepHandle (LoadState.Ready d)) = some d ∧
    (∀ ev d2, ∃ d3, stepHandle (LoadState.Ready d2) ev = LoadState.Ready d3) ∧
    (∀ ev r, stepHandle (LoadState.Failed r) ev = LoadState.Failed r) := by
  have hfold := foldl_stepHandle_ready d evs h
  refine ⟨hfold, by rw [hfold]; rfl, by rw [hfold]; rfl, ?_, ?_⟩
  · intro ev d2
    cases ev with
    | loadCompleted d' => exact ⟨d2, rfl⟩
    | loadFailed r => exact ⟨d2, rfl⟩
    | hotReload d' => exact ⟨d', rfl⟩
  · intro ev r
    cases ev with
    | loadCompleted d' => rfl
    | loadFailed r' => rfl
    | hotReload d' => rfl

/-- C5 witness: a `Ready` handle absorbs a later load completion and a
load failure without changing its descriptor. -/
theorem handle_readiness_stable_witness :
    [LoadEvent.loadCompleted { name := "Q", fragments := [] },
     LoadEvent.loadFailed "disk error"].foldl stepHandle
        (LoadState.Ready { name := "P", fragments := [] }) =
      LoadState.Ready { name := "P", fragments := [] } :=
  (handle_readiness_stable { name := "P", fragments := [] }
    [LoadEvent.loadCompleted { name := "Q", fragments := [] },
     LoadEvent.loadFailed "disk error"] (by decide)).1

/-! ## Claim theorems: API provider installation -/

theorem installFns_error_of_mem :
    ∀ (fs : List String) (api : HostApi), (∃ f, f ∈ fs ∧ f ∈ api.functions) →
      ∃ g, installFns api fs = Except.error (ApiInstallError.DuplicateFunctionName g)
  | [], _, ⟨f, hf, _⟩ => absurd hf (List.not_mem_nil f)
  | f0 :: rest, api, ⟨f, hf, hapi⟩ => by
    by_cases h0 : f0 ∈ api.functions
    · exact ⟨f0, by simp [installFns, h0]⟩
    · rcases List.mem_cons.mp hf with rfl | hrest
      · exact absurd hapi h0
      · have hmem : f ∈ (HostApi.mk (api.functions ++ [f0])).functions :=
          List.mem_append_left _ hapi
        obtain ⟨g, hg⟩ := installFns_error_of_mem rest
          (HostApi.mk (api.functions ++ [f0])) ⟨f, hrest, hmem⟩
        exact ⟨g, by simpa [installFns, h0] using hg⟩

theorem installFns_ok_of_disjoint :
    ∀ (fs : List String) (api : HostApi), fs.Nodup →
      (∀ f ∈ fs, f ∉ api.functions) →
      installFns api fs = Except.ok { functions := api.functions ++ fs }
  | [], api, _, _ => by simp [installFns]
  | f0 :: rest, api, hnd, hdisj => by
    have h0 : f0 ∉ api.functions := hdisj f0 (List.mem_cons_self f0 rest)
    have hrest : ∀ f ∈ rest, f ∉ (HostApi.mk (api.functions ++ [f0])).functions := by
      intro f hfr
      simp only [List.mem_append, List.mem_singleton, not_or]
      exact ⟨hdisj f (List.mem_cons_of_mem _ hfr),
        fun he => (List.nodup_cons.mp hnd).1 (he ▸ hfr)⟩
    have hrec : installFns (HostApi.mk (api.functions ++ [f0])) rest =
        Except.ok (HostApi.mk ((api.functions ++ [f0]) ++ rest)) :=
      installFns_ok_of_disjoint rest (HostApi.mk (api.functions ++ [f0]))
        (List.nodup_cons.mp hnd).2 hrest
    show (if f0 ∈ api.functions then
        Except.error (ApiInstallError.DuplicateFunctionName f0)
      else installFns (HostApi.mk (api.functions ++ [f0])) rest) =
      Except.ok { functions := api.functions ++ f0 :: rest }
    rw [if_neg h0, hrec, List.append_assoc, List.singleton_append]

/-- C9: installing an API provider fails with `DuplicateFunctionName`
whenever one of its exported callables is already registered under the
same name; installing a provider whose exported names are disjoint from
the already-installed ones (as the example does with the built-in Bevy
provider followed by the custom provider exporting only
`spawn_prototype`) succeeds. -/
theorem install_duplicate_function_name (api : HostApi) (p : ApiProviderRecord) :
    ((∃ f, f ∈ p.functions ∧ f ∈ api.functions) →
      ∃ g, install api p = Except.error (ApiInstallError.DuplicateFunctionName g)) ∧
    (p.functions.Nodup → (∀ f ∈ p.functions, f ∉ api.functions) →
      install api p = Except.ok { functions := api.functions ++ p.functions }) :=
  ⟨fun h => installFns_error_of_mem p.functions api h,
   fun hnd hdisj => installFns_ok_of_disjoint p.functions api hnd hdisj⟩

/-- C9 witness: after the built-in Bevy provider, installing
`MyCustomAPI` (exporting only `spawn_prototype`) succeeds; installing a
clashing provider fails with `DuplicateFunctionName`. -/
theorem install_duplicate_function_name_witness :
    install { functions := ["get_component", "insert_component"] }
        { providerName := "MyCustomAPI", functions := ["spawn_prototype"] } =
      Except.ok { functions := ["get_component", "insert_component", "spawn_prototype"] } ∧
    ∃ g, install { functions := ["get_component", "insert_component"] }
        { providerName := "Clash", functions := ["get_component"] } =
      Except.error (ApiInstallError.DuplicateFunctionName g) :=
  ⟨(install_duplicate_function_name
      { functions := ["get_component", "insert_component"] }
      { providerName := "MyCustomAPI", functions := ["spawn_prototype"] }).2
      (by decide) (by decide),
   (install_duplicate_function_name
      { functions := ["get_component", "insert_component"] }
      { providerName := "Clash", functions := ["get_component"] }).1
      ⟨"get_component", by decide, by decide⟩⟩

/-! ## Claim theorems: the script-exposed spawn callable -/

/-- C10: the script-exposed callable `spawn_prototype` is total over its
input — for every prototype name it returns a `Dynamic` wrapping the
freshly allocated entity id, the spawn command itself is merely queued,
and no `SpawnError` (unready or unknown prototype included) is
observable through the return value. -/
theorem spawn_prototype_total (s : ProtoCommandsState) (protoName : String)
    (hwf : ∀ p ∈ s.world.entities, p.1 < s.world.nextId) :
    (SpawnViaScript.spawn s protoName).1 = RhaiDynamic.entityId s.world.nextId ∧
    (∀ p ∈ s.world.entities, p.1 ≠ s.world.nextId) ∧
    (SpawnViaScript.spawn s protoName).2.pending =
      s.pending ++ [(protoName, s.world.nextId)] ∧
    (SpawnViaScript.spawn s protoName).2.world = spawnInit s.world :=
  ⟨rfl, fun p hp => Nat.ne_of_lt (hwf p hp), rfl, rfl⟩

/-- C10 witness: calling the callable with a name no prototype store
knows still returns a `Dynamic` entity id and queues the command. -/
theorem spawn_prototype_total_witness :
    (SpawnViaScript.spawn
        { world := { nextId := 1, entities := [(0, [])] }, pending := [] }
        "NoSuchPrototype").1 = RhaiDynamic.entityId 1 ∧
    (SpawnViaScript.spawn
        { world := { nextId := 1, entities := [(0, [])] }, pending := [] }
        "NoSuchPrototype").2.pending = [("NoSuchPrototype", 1)] := by
  have h := spawn_prototype_total
    { world := { nextId := 1, entities := [(0, [])] }, pending := [] }
    "NoSuchPrototype" (by simp)
  exact ⟨h.1, by rw [h.2.2.1]; rfl⟩

/-! ## Claim theorems: event dispatch ordering and isolation -/

theorem dispatchRun_log_pairwise (run : Nat → String → Bool) :
    ∀ (q : List QueuedEvent) (ctxs : List ScriptContext),
    q.Pairwise evOrd → ((dispatchRun run q ctxs).2.1).Pairwise dOrd
  | [], _, _ => List.Pairwise.nil
  | qe :: rest, ctxs, hp => by
    simp only [dispatchRun]
    rw [List.pairwise_append]
    obtain ⟨hhead, htail⟩ := List.pairwise_cons.mp hp
    refine ⟨?_, ?_, ?_⟩
    · rw [deliverEvent_log, List.pairwise_map]
      exact pairwise_of_all (fun a b => Or.inr ⟨rfl, Nat.le_refl _⟩) _
    · rw [deliverEvent_ctxs]
      exact dispatchRun_log_pairwise run rest (ctxs.map (updCtx qe.event)) htail
    · intro d1 hd1 d2 hd2
      obtain ⟨h1s, h1p⟩ := deliverEvent_log_keys run qe ctxs d1 hd1
      obtain ⟨qe', hqe', c', hc', h2s, h2p, _, _⟩ :=
        dispatchRun_log_mem run rest (deliverEvent run qe ctxs).1 d2 hd2
      have hord : evOrd qe qe' := hhead qe' hqe'
      unfold evOrd at hord
      unfold dOrd
      rw [h1s, h1p, h2s, h2p]
      exact hord

theorem dispatchRun_log_once (run : Nat → String → Bool) :
    ∀ (q : List QueuedEvent) (ctxs : List ScriptContext),
    q.Pairwise (fun a b => a.seq ≠ b.seq) → (ctxs.map ScriptContext.ctxId).Nodup →
    ((dispatchRun run q ctxs).2.1).Pairwise
      (fun d1 d2 => d1.seq = d2.seq → d1.ctxId ≠ d2.ctxId)
  | [], _, _, _ => List.Pairwise.nil
  | qe :: rest, ctxs, hp, hnd => by
    simp only [dispatchRun]
    rw [List.pairwise_append]
    obtain ⟨hhead, htail⟩ := List.pairwise_cons.mp hp
    have hnd' : ((ctxs.map (updCtx qe.event)).map ScriptContext.ctxId).Nodup := by
      rw [List.map_map]
      have hco : (ScriptContext.ctxId ∘ updCtx qe.event) = ScriptContext.ctxId :=
        funext fun c => updCtx_ctxId qe.event c
      rw [hco]
      exact hnd
    refine ⟨?_, ?_, ?_⟩
    · rw [deliverEvent_log, List.pairwise_map]
      have hsub : ((ctxs.filter (fun c => isRecipient qe.event c)).map
          ScriptContext.ctxId).Nodup :=
        ((List.filter_sublist ctxs).map ScriptContext.ctxId).nodup hnd
      refine (pairwise_ne_of_nodup_map hsub).imp ?_
      intro a b h hseq
      exact h
    · rw [deliverEvent_ctxs]
      exact dispatchRun_log_once run rest (ctxs.map (updCtx qe.event)) htail hnd'
    · intro d1 hd1 d2 hd2 hseq
      obtain ⟨h1s, _⟩ := deliverEvent_log_keys run qe ctxs d1 hd1
      obtain ⟨qe', hqe', c', hc', h2s, _, _, _⟩ :=
        dispatchRun_log_mem run rest (deliverEvent run qe ctxs).1 d2 hd2
      have hss : qe.seq = qe'.seq := by rw [← h1s, hseq, h2s]
      exact absurd hss (hhead qe' hqe')

/-- C2: within a single `dispatch_pass`, every delivery of a
higher-priority event precedes every delivery of a lower-priority event
regardless of enqueue order, and among equal priorities deliveries
follow FIFO enqueue order — the delivery log is pairwise ordered by
strictly-descending priority with enqueue-order tie-breaking. -/
theorem dispatch_priority_ordering (run : Nat → String → Bool)
    (ctxs : List ScriptContext) (items : List (Event × Int)) :
    ((dispatchPass run ctxs (enqueueFrom 0 items)).log).Pairwise dOrd := by
  rw [dispatchPass_log]
  exact dispatchRun_log_pairwise run (sortQueue (enqueueFrom 0 items)) ctxs
    (List.sorted_insertionSort evOrd (enqueueFrom 0 items))

/-- C7: within any single dispatch pass each event reaches a given
context at most once (log entries of one event have pairwise distinct
context ids), and the pass ends with an empty queue, so no event is
carried across ticks or delivered twice to the same context. -/
theorem dispatch_once_per_context (run : Nat → String → Bool)
    (ctxs : List ScriptContext) (items : List (Event × Int))
    (hnd : (ctxs.map ScriptContext.ctxId).Nodup) :
    (dispatchPass run ctxs (enqueueFrom 0 items)).queue = [] ∧
    ((dispatchPass run ctxs (enqueueFrom 0 items)).log).Pairwise
      (fun d1 d2 => d1.seq = d2.seq → d1.ctxId ≠ d2.ctxId) := by
  refine ⟨rfl, ?_⟩
  rw [dispatchPass_log]
  have hq : (enqueueFrom 0 items).Pairwise (fun a b => a.seq ≠ b.seq) :=
    pairwise_ne_of_nodup_map (enqueueFrom_seq_nodup 0 items)
  have hsorted : (sortQueue (enqueueFrom 0 items)).Pairwise
      (fun a b => a.seq ≠ b.seq) :=
    (List.Perm.pairwise_iff (fun h => Ne.symm h)
      (List.perm_insertionSort evOrd (enqueueFrom 0 items))).mpr hq
  exact dispatchRun_log_once run (sortQueue (enqueueFrom 0 items)) ctxs hsorted hnd

/-- C7 witness: one attached context, one broadcast event — the pass
drains the queue and the log never repeats a context per event. -/
theorem dispatch_once_per_context_witness :
    (dispatchPass (fun _ _ => true)
      [{ ctxId := 1, owner := some 10, hooks := ["update"],
         state := CtxState.Attached }]
      (enqueueFrom 0 [({ hookName := "update", payload := "",
                         recipients := Recipients.All }, 0)])).queue = [] ∧
    ((dispatchPass (fun _ _ => true)
      [{ ctxId := 1, owner := some 10, hooks := ["update"],
         state := CtxState.Attached }]
      (enqueueFrom 0 [({ hookName := "update", payload := "",
                         recipients := Recipients.All }, 0)])).log).Pairwise
      (fun d1 d2 => d1.seq = d2.seq → d1.ctxId ≠ d2.ctxId) :=
  dispatch_once_per_context (fun _ _ => true)
    [{ ctxId := 1, owner := some 10, hooks := ["update"],
       state := CtxState.Attached }]
    [({ hookName := "update", payload := "", recipients := Recipients.All }, 0)]
    (by decide)

theorem isRecipient_entity (ev : Event) (x : Nat) (c : ScriptContext)
    (hr : ev.recipients = Recipients.Entity x) :
    isRecipient ev c = (isLive c.state && decide (c.owner = some x)) := by
  unfold isRecipient
  rw [hr]

/-- C4: recipient isolation — an event addressed to `Entity x` is
delivered only to live contexts owned by `x` (even when other contexts
expose the same hook), and when no live context owned by `x` exists the
event produces no delivery at all (silently dropped). -/
theorem recipient_isolation (run : Nat → String → Bool)
    (ctxs : List ScriptContext) (items : List (Event × Int))
    (qe : QueuedEvent) (x : Nat)
    (hq : qe ∈ enqueueFrom 0 items)
    (hr : qe.event.recipients = Recipients.Entity x) :
    (∀ d ∈ (dispatchPass run ctxs (enqueueFrom 0 items)).log, d.seq = qe.seq →
      ∃ c ∈ ctxs, d.ctxId = c.ctxId ∧ c.owner = some x ∧ isLive c.state = true) ∧
    ((∀ c ∈ ctxs, isLive c.state = true → c.owner ≠ some x) →
      ∀ d ∈ (dispatchPass run ctxs (enqueueFrom 0 items)).log, d.seq ≠ qe.seq) := by
  have hperm := List.perm_insertionSort evOrd (enqueueFrom 0 items)
  have hnodup : ((enqueueFrom 0 items).map QueuedEvent.seq).Nodup :=
    enqueueFrom_seq_nodup 0 items
  constructor
  · intro d hd hds
    rw [dispatchPass_log] at hd
    obtain ⟨qe', hqe', c, hc, h1, h2, h3, h4⟩ :=
      dispatchRun_log_mem run (sortQueue (enqueueFrom 0 items)) ctxs d hd
    have hqq : qe' ∈ enqueueFrom 0 items := hperm.mem_iff.mp hqe'
    have heq : qe' = qe :=
      List.inj_on_of_nodup_map hnodup hqq hq (by rw [← h1, hds])
    subst heq
    rw [isRecipient_entity qe'.event x c hr, Bool.and_eq_true] at h4
    exact ⟨c, hc, h3, of_decide_eq_true h4.2, h4.1⟩
  · intro hno d hd hds
    rw [dispatchPass_log] at hd
    obtain ⟨qe', hqe', c, hc, h1, h2, h3, h4⟩ :=
      dispatchRun_log_mem run (sortQueue (enqueueFrom 0 items)) ctxs d hd
    have hqq : qe' ∈ enqueueFrom 0 items := hperm.mem_iff.mp hqe'
    have heq : qe' = qe :=
      List.inj_on_of_nodup_map hnodup hqq hq (by rw [← h1, hds])
    subst heq
    rw [isRecipient_entity qe'.event x c hr, Bool.and_eq_true] at h4
    exact absurd (of_decide_eq_true h4.2) (hno c hc h4.1)

/-- C4 witness: two live contexts exposing the same hook; the delivery
the pass produces for the event addressed to entity `10` goes to a
context owned by `10`. -/
theorem recipient_isolation_witness :
    ∃ c ∈ ([{ ctxId := 1, owner := some 10, hooks := ["update"],
              state := CtxState.Attached },
            { ctxId := 2, owner := some 20, hooks := ["update"],
              state := CtxState.Attached }] : List ScriptContext),
      ({ seq := 0, priority := 0, ctxId := 1, hook := "update" } : Delivery).ctxId
          = c.ctxId ∧
      c.owner = some 10 ∧ isLive c.state = true :=
  (recipient_isolation (fun _ _ => true)
    [{ ctxId := 1, owner := some 10, hooks := ["update"],
       state := CtxState.Attached },
     { ctxId := 2, owner := some 20, hooks := ["update"],
       state := CtxState.Attached }]
    [({ hookName := "update", payload := "",
        recipients := Recipients.Entity 10 }, 0)]
    { event := { hookName := "update", payload := "",
                 recipients := Recipients.Entity 10 },
      priority := 0, seq := 0 }
    10 (List.mem_singleton.mpr rfl) rfl).1
    { seq := 0, priority := 0, ctxId := 1, hook := "update" } (by decide) rfl

/-- C6: hook failure isolation — a failing hook invocation surfaces as a
`ScriptRuntimeError` tagged with the hook name and the script context
identity, the context is still `Attached` after the pass, and the
delivery log of the pass is exactly what it would have been under any
other hook outcomes (delivery to the remaining recipients and events is
unaffected). -/
theorem hook_failure_isolation (run : Nat → String → Bool)
    (ctxs : List ScriptContext) (q : List QueuedEvent) (qe : QueuedEvent)
    (c : ScriptContext) (hq : qe ∈ q) (hc : c ∈ ctxs)
    (hrec : isRecipient qe.event c = true)
    (hfail : run c.ctxId qe.event.hookName = false)
    (hatt : c.state = CtxState.Attached) :
    ({ hookName := qe.event.hookName, scriptId := c.ctxId } : ScriptRuntimeError) ∈
      (dispatchPass run ctxs q).errors ∧
    (∃ c2 ∈ (dispatchPass run ctxs q).ctxs, c2.ctxId = c.ctxId ∧
      c2.state = CtxState.Attached) ∧
    (∀ run2, (dispatchPass run2 ctxs q).log = (dispatchPass run ctxs q).log) := by
  have hqs : qe ∈ sortQueue q := (List.perm_insertionSort evOrd q).mem_iff.mpr hq
  refine ⟨?_, ?_, ?_⟩
  · rw [dispatchPass_errors]
    exact dispatchRun_err_mem run (sortQueue q) ctxs qe c hqs hc hrec hfail
  · refine ⟨updAll (sortQueue q) c, ?_, ?_, updAll_attached (sortQueue q) c hatt⟩
    · rw [dispatchPass_ctxs, dispatchRun_ctxs run (sortQueue q) ctxs]
      exact List.mem_map_of_mem (updAll (sortQueue q)) hc
    · exact congrArg Prod.fst (ctxKey_updAll (sortQueue q) c)
  · intro run2
    rw [dispatchPass_log, dispatchPass_log]
    exact (dispatchRun_run_irrel run2 run (sortQueue q) ctxs).1

/-- C6 witness: a single event whose hook fails on the only context —
the error is recorded, the context remains attached, and the log
coincides with the all-success log. -/
theorem hook_failure_isolation_witness :
    ({ hookName := "update", scriptId := 1 } : ScriptRuntimeError) ∈
      (dispatchPass (fun _ _ => false)
        [{ ctxId := 1, owner := some 10, hooks := ["update"],
           state := CtxState.Attached }]
        [{ event := { hookName := "update", payload := "",
                      recipients := Recipients.All },
           priority := 0, seq := 0 }]).errors ∧
    (∃ c2 ∈ (dispatchPass (fun _ _ => false)
        [{ ctxId := 1, owner := some 10, hooks := ["update"],
           state := CtxState.Attached }]
        [{ event := { hookName := "update", payload := "",
                      recipients := Recipients.All },
           priority := 0, seq := 0 }]).ctxs,
      c2.ctxId = 1 ∧ c2.state = CtxState.Attached) ∧
    (∀ run2, (dispatchPass run2
        [{ ctxId := 1, owner := some 10, hooks := ["update"],
           state := CtxState.Attached }]
        [{ event := { hookName := "update", payload := "",
                      recipients := Recipients.All },
           priority := 0, seq := 0 }]).log =
      (dispatchPass (fun _ _ => false)
        [{ ctxId := 1, owner := some 10, hooks := ["update"],
           state := CtxState.Attached }]
        [{ event := { hookName := "update", payload := "",
                      recipients := Recipients.All },
           priority := 0, seq := 0 }]).log) :=
  hook_failure_isolation (fun _ _ => false)
    [{ ctxId := 1, owner := some 10, hooks := ["update"],
       state := CtxState.Attached }]
    [{ event := { hookName := "update", payload := "",
                  recipients := Recipients.All },
       priority := 0, seq := 0 }]
    { event := { hookName := "update", payload := "",
                 recipients := Recipients.All }, priority := 0, seq := 0 }
    { ctxId := 1, owner := some 10, hooks := ["update"],
      state := CtxState.Attached }
    (List.mem_singleton.mpr rfl) (List.mem_singleton.mpr rfl)
    (by decide) rfl rfl
